import Mathlib

/-!
Verification of the voice-assistant bot (`src/bot.py`).

The Python source is shallowly embedded below.  Texts are modelled as
`List Char`; timestamps as natural numbers counting minutes since the
epoch at minute granularity (the source zeroes seconds and microseconds
via `datetime.replace(second=0, microsecond=0)`, so minute granularity
is exact for every value the claims touch).  External services
(Google Calendar, Notion, Whisper, GPT) are modelled as explicit
environments recording the responses the running code would observe.
-/

namespace VoiceBot

/-! ## Character helpers

Python's `str.lower()` and `re.IGNORECASE` fold Cyrillic case; Lean's
`Char.toLower` is ASCII only, so we fold the Cyrillic range `А..Я`
(U+0410..U+042F) and `Ё` (U+0401) explicitly. -/

def rlower (c : Char) : Char :=
  if 0x410 ≤ c.toNat ∧ c.toNat ≤ 0x42F then Char.ofNat (c.toNat + 0x20)
  else if c.toNat = 0x401 then Char.ofNat 0x451
  else c.toLower

def lowerAll (l : List Char) : List Char := l.map rlower

/-- `headEq n l` : the list `n` occurs at the head of `l` (exact chars). -/
def headEq : List Char → List Char → Bool
  | [], _ => true
  | _ :: _, [] => false
  | p :: ps, c :: t => p = c && headEq ps t

/-- Python's substring test `n in l`. -/
def hasSub (n : List Char) : List Char → Bool
  | [] => headEq n []
  | c :: t => headEq n (c :: t) || hasSub n t

/-! ## Time search: `re.search(r'(\d{1,2})[:\.](\d{2})', text)`  (bot.py line 203)

The pattern needs 1-2 digits, a `:` or `.` separator, then exactly two
digits.  `\d{1,2}` is greedy with backtracking: two digits are tried
first, then one. -/

def isSep (c : Char) : Bool := c = ':' || c = '.'

def dv (c : Char) : Nat := c.toNat - 48

/-- Attempt the time pattern anchored at the head of the list. -/
def tryTimeAt (l : List Char) : Option (Nat × Nat) :=
  match l with
  | c1 :: c2 :: c3 :: c4 :: c5 :: _ =>
    if c1.isDigit && c2.isDigit && isSep c3 && c4.isDigit && c5.isDigit then
      some (dv c1 * 10 + dv c2, dv c4 * 10 + dv c5)
    else if c1.isDigit && isSep c2 && c3.isDigit && c4.isDigit then
      some (dv c1, dv c3 * 10 + dv c4)
    else none
  | [c1, c2, c3, c4] =>
    if c1.isDigit && isSep c2 && c3.isDigit && c4.isDigit then
      some (dv c1, dv c3 * 10 + dv c4)
    else none
  | _ => none

/-- `re.search`: first position (left to right) where the pattern matches. -/
def findTime : List Char → Option (Nat × Nat)
  | [] => none
  | c :: t =>
    match tryTimeAt (c :: t) with
    | some hm => some hm
    | none => findTime t

/-! ## Title cleaning (bot.py lines 224-226)

`re.sub(r'\d{1,2}[:\.]?\d{0,2}', '', text)` followed by
`re.sub(r'(завтра|послезавтра|сегодня|в|на|утром|вечером|днём)', '', ·, re.IGNORECASE)`
followed by `' '.join(·.split()).strip() or "Встреча"`.

Both substitutions scan left to right, removing each non-overlapping
match; they are written with explicit fuel (an upper bound on the number
of scan steps, which is at most the length of the input since each step
consumes at least one character). -/

/-- Length consumed by `\d{1,2}[:\.]?\d{0,2}` when the head is a digit:
greedily 1-2 digits, then an optional separator, then 0-2 digits. -/
def digitMatchLen (l : List Char) : Nat :=
  match l with
  | [] => 0
  | _ :: rest =>
    let (nd, rest2) : Nat × List Char :=
      match rest with
      | c2 :: r2 => if c2.isDigit then (2, r2) else (1, rest)
      | [] => (1, [])
    let (ns, rest3) : Nat × List Char :=
      match rest2 with
      | c3 :: r3 => if isSep c3 then (nd + 1, r3) else (nd, rest2)
      | [] => (nd, rest2)
    match rest3 with
    | c4 :: r4 =>
      if c4.isDigit then
        match r4 with
        | c5 :: _ => if c5.isDigit then ns + 2 else ns + 1
        | [] => ns + 1
      else ns
    | [] => ns

def dsF : Nat → List Char → List Char
  | 0, l => l
  | _ + 1, [] => []
  | f + 1, c :: t =>
    if c.isDigit then dsF f (List.drop (digitMatchLen (c :: t)) (c :: t))
    else c :: dsF f t

/-- `re.sub(r'\d{1,2}[:\.]?\d{0,2}', '', text)`. -/
def digitStrip (l : List Char) : List Char := dsF l.length l

/-- Alternatives of the stop-word regex, in source order; Python tries
them left to right at each position, taking the first that matches. -/
def stopPats : List (List Char) :=
  ["завтра", "послезавтра", "сегодня", "в", "на", "утром", "вечером", "днём"].map
    String.toList

/-- Case-insensitive anchored match of a (lowercase) pattern. -/
def ciPre : List Char → List Char → Bool
  | [], _ => true
  | _ :: _, [] => false
  | p :: ps, c :: t => rlower c = p && ciPre ps t

/-- First alternative matching at the head; returns the matched length. -/
def firstTok (pats : List (List Char)) (l : List Char) : Option Nat :=
  match pats with
  | [] => none
  | p :: ps => if ciPre p l then some p.length else firstTok ps l

def ssF : Nat → List Char → List Char
  | 0, l => l
  | _ + 1, [] => []
  | f + 1, c :: t =>
    match firstTok stopPats (c :: t) with
    | some k => ssF f (List.drop k (c :: t))
    | none => c :: ssF f t

/-- The stop-word `re.sub` with `re.IGNORECASE`. -/
def stopStrip (l : List Char) : List Char := ssF l.length l

/-! Whitespace collapsing: `' '.join(text.split()).strip()`. -/

def isSp (c : Char) : Bool := c = ' ' || c = '\t' || c = '\n' || c = '\r'

def pushCur (acc : List Char × List (List Char)) : List (List Char) :=
  if acc.1 = [] then acc.2 else acc.1 :: acc.2

def wStep (c : Char) (acc : List Char × List (List Char)) :
    List Char × List (List Char) :=
  if isSp c then ([], pushCur acc) else (c :: acc.1, acc.2)

def wgo (l : List Char) : List Char × List (List Char) := l.foldr wStep ([], [])

/-- Python `str.split()`: maximal runs of non-whitespace. -/
def words (l : List Char) : List (List Char) := pushCur (wgo l)

/-- Python `' '.join(ws)`. -/
def joinSp : List (List Char) → List Char
  | [] => []
  | [w] => w
  | w :: ws => w ++ ' ' :: joinSp ws

def trimL (l : List Char) : List Char := l.dropWhile fun c => isSp c

/-- Python `str.strip()`. -/
def trim (l : List Char) : List Char := ((trimL ((trimL l).reverse)).reverse)

/-- `' '.join(text.split()).strip()`. -/
def collapse (l : List Char) : List Char := trim (joinSp (words l))

def defaultTitle : List Char := "Встреча".toList

/-- The whole title pipeline of bot.py lines 224-226. -/
def cleanTitle (text : List Char) : List Char :=
  let t1 := digitStrip text
  let t2 := stopStrip t1
  let t3 := collapse t2
  if t3 = [] then defaultTitle else t3

/-! ## `parse_meeting_time_simple` (bot.py lines 198-228) -/

/-- Minutes-since-epoch timestamp for day `d`, hour `h`, minute `m`. -/
def mkT (d h m : Nat) : Nat := d * 1440 + h * 60 + m

/-- Date keyword scan (bot.py lines 210-216).  Note the source tests
`'завтра' in text_lower` BEFORE `'послезавтра'`. -/
def dateOffset (text : List Char) : Nat :=
  let tl := lowerAll text
  if hasSub "завтра".toList tl then 1
  else if hasSub "послезавтра".toList tl then 2
  else 0

/-- `parse_meeting_time_simple`.  Returns `none` when
`datetime.replace` would raise `ValueError` (hour ≥ 24 or minute ≥ 60,
possible since the regex admits values up to 99); otherwise
`(title, start, end)` with `end = start + 60` minutes. -/
def parse_meeting_time_simple (text : List Char) (now : Nat) :
    Option (List Char × Nat × Nat) :=
  let hm := (findTime text).getD (10, 0)
  if 24 ≤ hm.1 ∨ 60 ≤ hm.2 then none
  else
    let start := (now / 1440 + dateOffset text) * 1440 + hm.1 * 60 + hm.2
    some (cleanTitle text, start, start + 60)

example : findTime "встреча завтра в 15:00".toList = some (15, 0) := by decide
example : findTime "созвон в 9".toList = none := by decide
example : dateOffset "послезавтра в 15:00".toList = 1 := by decide
example : cleanTitle "в".toList = "Встреча".toList := by decide
example : cleanTitle "Встреча".toList = "стреча".toList := by decide
example :
    parse_meeting_time_simple "встреча завтра в 15:00 с Антоном".toList
      (mkT 19732 9 0) =
    some ("стреча с Антоном".toList, mkT 19733 15 0, mkT 19733 16 0) := by decide

/-! ## Calendar formatting helpers -/

/-- Civil date from days since 1970-01-01 (standard era/year-of-era
conversion), used by `strftime("%d.%m.%Y ...")`. -/
def civilFromDays (z0 : Nat) : Nat × Nat × Nat :=
  let z := z0 + 719468
  let era := z / 146097
  let doe := z % 146097
  let yoe := (doe - doe / 1460 + doe / 36524 - doe / 146096) / 365
  let y := yoe + era * 400
  let doy := doe - (365 * yoe + yoe / 4 - yoe / 100)
  let mp := (5 * doy + 2) / 153
  let d := doy - (153 * mp + 2) / 5 + 1
  let m := if mp < 10 then mp + 3 else mp - 9
  (if m ≤ 2 then y + 1 else y, m, d)

def pad2 (n : Nat) : String := if n < 10 then "0" ++ toString n else toString n

/-- `start_time.strftime("%d.%m.%Y в %H:%M")` (bot.py lines 468, 517). -/
def fmtRu (t : Nat) : String :=
  let (y, m, d) := civilFromDays (t / 1440)
  pad2 d ++ "." ++ pad2 m ++ "." ++ toString y ++ " в " ++
    pad2 (t % 1440 / 60) ++ ":" ++ pad2 (t % 60)

example : fmtRu (mkT 19732 9 5) = "10.01.2024 в 09:05" := by decide

/-! ## `check_calendar_busy` (bot.py lines 373-445)

The external responses the function would observe are packaged as a
`CalQuery`: `ok` is whether the `calendarList`/`freebusy` calls succeed
(any exception in the `try` block makes the function return `[]`),
`slots` the `(calendar, start, end)` busy slots collected from the
FreeBusy result, and `items` the `(calendar, summary, start)` event
details collected from the per-calendar `events().list` calls (whose
individual failures the source swallows; `summary` is already defaulted
to `"Занято"` by `event.get('summary', 'Занято')`). -/

structure CalQuery where
  ok : Bool
  slots : List (String × String × String)
  items : List (String × String × String)

/-- An entry of the `busy_events` list: FreeBusy slots carry no
`'summary'` key, event items do. -/
inductive BusyEv
  | slot (cal s e : String)
  | item (cal summary s : String)
deriving DecidableEq

def BusyEv.summaryQ : BusyEv → Option String
  | .slot _ _ _ => none
  | .item _ sm _ => some sm

def BusyEv.startStr : BusyEv → String
  | .slot _ s _ => s
  | .item _ _ s => s

/-- The dedup loop of lines 432-439: keep only entries carrying a
`summary`, first occurrence of each `(summary, start)` pair. -/
def dedupGo : List BusyEv → List (String × String) → List BusyEv
  | [], _ => []
  | ev :: rest, seen =>
    match ev.summaryQ with
    | none => dedupGo rest seen
    | some sm =>
      if (sm, ev.startStr) ∈ seen then dedupGo rest seen
      else ev :: dedupGo rest ((sm, ev.startStr) :: seen)

def check_calendar_busy (q : CalQuery) : List BusyEv :=
  if q.ok = false then []
  else
    let busy0 := q.slots.map fun p => BusyEv.slot p.1 p.2.1 p.2.2
    let busy :=
      if busy0.isEmpty then busy0
      else busy0 ++ q.items.map fun p => BusyEv.item p.1 p.2.1 p.2.2
    let uniq := dedupGo busy []
    if uniq.isEmpty then busy else uniq

/-! ## `create_calendar_event` and the pending-meeting store -/

/-- `str(ev_start)[:16].replace('T', ' ')` (bot.py line 513). -/
def fmt16 (s : String) : String :=
  String.mk ((s.toList.take 16).map fun c => if c = 'T' then ' ' else c)

/-- One line of the conflict list (bot.py lines 506-514). -/
def conflictLine (ev : BusyEv) : String :=
  "• " ++ (ev.summaryQ.getD "Занято") ++ " (" ++ fmt16 ev.startStr ++ ")"

def mkConflicts (l : List BusyEv) : List String := l.map conflictLine

/-- The `event_data` dict stored in `pending_meetings` (bot.py lines
496-517); the stored Google service handle is opaque, modelled as
`Unit`. -/
structure EventData where
  title : List Char
  start_time : Nat
  end_time : Nat
  service : Unit
  conflicts : List String
  formatted_time : String
deriving DecidableEq

inductive Outcome
  | created (msg : String)
  | conflict (data : EventData)
  | error (msg : String)
deriving DecidableEq

def outcomeIsError : Outcome → Bool
  | .error _ => true
  | _ => false

/-- `pending_meetings`, keyed by user id. -/
def Store := Nat → Option EventData

def setStore (p : Store) (u : Nat) (v : EventData) : Store :=
  fun x => if x = u then some v else p x

def delStore (p : Store) (u : Nat) : Store :=
  fun x => if x = u then none else p x

/-- Responses of the external calendar/AI world for one
`create_calendar_event` run:
`service` — whether `get_google_calendar_service()` returns a service;
`ai` — the GPT extraction when that path completes without exception
(`none` makes `parse_meeting_with_ai` fall back to the regex parser);
`now` — `datetime.now()` in minutes, for the fallback parser;
`query` — what `check_calendar_busy` observes;
`insertOk`/`insertErr` — outcome of `events().insert`. -/
structure CalEnv where
  service : Bool
  ai : Option (List Char × Nat × Nat)
  now : Nat
  query : CalQuery
  insertOk : Bool
  insertErr : String

/-- `parse_meeting_with_ai` (bot.py lines 101-195): GPT path, falling
back to `parse_meeting_time_simple` on any exception.  A `ValueError`
raised by the fallback itself propagates (`none`). -/
def parse_meeting_with_ai (env : CalEnv) (text : List Char) :
    Option (List Char × Nat × Nat) :=
  match env.ai with
  | some r => some r
  | none => parse_meeting_time_simple text env.now

def cfgErrMsg : String := "Google Calendar не настроен. Добавьте GOOGLE_CREDENTIALS_JSON."

/-- `create_event_in_calendar` (bot.py lines 448-472).  The third
component is the effect trace: the list of events actually inserted
into the calendar. -/
def create_event_in_calendar (insertOk : Bool) (insertErr : String)
    (title : List Char) (s e : Nat) :
    Bool × String × List (List Char × Nat × Nat) :=
  if insertOk then
    (true, String.mk title ++ "\n🕐 " ++ fmtRu s, [(title, s, e)])
  else (false, insertErr, [])

/-- `create_calendar_event` (bot.py lines 475-530).  Returns `none`
when an uncaught exception propagates (the fallback parser's
`ValueError`), otherwise the outcome, the updated `pending_meetings`
store and the list of events inserted. -/
def create_calendar_event (env : CalEnv) (text : List Char) (user : Nat)
    (pending : Store) :
    Option (Outcome × Store × List (List Char × Nat × Nat)) :=
  if env.service = false then some (.error cfgErrMsg, pending, [])
  else
    match parse_meeting_with_ai env text with
    | none => none
    | some (title, s, e) =>
      let busy := check_calendar_busy env.query
      if busy.isEmpty then
        let (succ, res, evs) :=
          create_event_in_calendar env.insertOk env.insertErr title s e
        if succ then some (.created res, pending, evs)
        else some (.error res, pending, evs)
      else
        let data : EventData :=
          ⟨title, s, e, (), mkConflicts busy, fmtRu s⟩
        some (.conflict data, setStore pending user data, [])

/-! ## `handle_meeting_callback` (bot.py lines 533-577) -/

inductive CbAction
  | confirm
  | cancel
deriving DecidableEq

inductive CbReply
  | notFound
  | created (msg : String)
  | createError (msg : String)
  | cancelled
deriving DecidableEq

def handle_meeting_callback (env : CalEnv) (act : CbAction) (user : Nat)
    (pending : Store) : CbReply × Store × List (List Char × Nat × Nat) :=
  match act with
  | .confirm =>
    match pending user with
    | none => (.notFound, pending, [])
    | some ed =>
      let (succ, res, evs) :=
        create_event_in_calendar env.insertOk env.insertErr ed.title
          ed.start_time ed.end_time
      let pending' := delStore pending user
      if succ then (.created res, pending', evs)
      else (.createError res, pending', evs)
  | .cancel =>
    (.cancelled,
      if (pending user).isSome then delStore pending user else pending, [])

/-! ## Session state, duplicate suppression and `handle_voice` -/

inductive Mode
  | task
  | meeting
deriving DecidableEq

/-- `user_modes`: absent key and an explicitly stored `None` (set by the
"back" button) both read back as no mode via `.get`. -/
def getMode (m : Nat → Option (Option Mode)) (u : Nat) : Option Mode :=
  match m u with
  | none => none
  | some x => x

/-- `message_key = f"{user_id}_{message_id}"` (bot.py line 586). -/
def msgKey (u m : Nat) : List Char := (Nat.repr u).toList ++ '_' :: (Nat.repr m).toList

/-- The duplicate-suppression step of bot.py lines 587-594: membership
test, record, then clear the whole set when its size exceeds 100. -/
def seen_and_mark (key : List Char) (s : Finset (List Char)) :
    Bool × Finset (List Char) :=
  if key ∈ s then (true, s)
  else
    let s' := insert key s
    (false, if 100 < s'.card then ∅ else s')

structure BotState where
  modes : Nat → Option (Option Mode)
  pending : Store
  processed : Finset (List Char)

/-- `/start` (bot.py lines 231-243): sets the user's mode to
`MODE_TASK`. -/
def start (user : Nat) (st : BotState) : BotState :=
  { st with modes := fun u => if u = user then some (some Mode.task) else st.modes u }

/-- `handle_back` (bot.py lines 276-284): stores an explicit `None`. -/
def handle_back (user : Nat) (st : BotState) : BotState :=
  { st with modes := fun u => if u = user then some none else st.modes u }

/-- External world for one `handle_voice` run: `transcribeR` is the
outcome of download + conversion + Whisper (any exception there lands
in the generic handler); `notionOk`/`notionErr` the Notion API result;
`cal` the calendar world. -/
structure VoiceEnv where
  transcribeR : Except String (List Char)
  notionOk : Bool
  notionErr : String
  cal : CalEnv

/-- External calls `handle_voice` performs, in order. -/
inductive Action
  | transcribe
  | notionCreate (text : List Char)
  | calendarRun (text : List Char)
deriving DecidableEq

inductive VoiceOut
  | duplicateSkipped
  | promptMode
  | taskDone (text : List Char)
  | taskFailed (err : String)
  | meetingOutcome (o : Outcome)
  | exceptionReply (e : String)
deriving DecidableEq

structure VRes where
  state : BotState
  out : VoiceOut
  calls : List Action
  createdEvents : List (List Char × Nat × Nat)

/-- `handle_voice` (bot.py lines 580-688). -/
def handle_voice (env : VoiceEnv) (user msg : Nat) (st : BotState) : VRes :=
  let key := msgKey user msg
  let (seen, processed') := seen_and_mark key st.processed
  let st1 : BotState := { st with processed := processed' }
  if seen then ⟨st1, .duplicateSkipped, [], []⟩
  else
    match getMode st1.modes user with
    | none => ⟨st1, .promptMode, [], []⟩
    | some mode =>
      match env.transcribeR with
      | .error e => ⟨st1, .exceptionReply e, [.transcribe], []⟩
      | .ok text =>
        match mode with
        | .task =>
          if env.notionOk then
            ⟨st1, .taskDone text, [.transcribe, .notionCreate text], []⟩
          else
            ⟨st1, .taskFailed env.notionErr, [.transcribe, .notionCreate text], []⟩
        | .meeting =>
          match create_calendar_event env.cal text user st1.pending with
          | none =>
            ⟨st1, .exceptionReply "ValueError", [.transcribe, .calendarRun text], []⟩
          | some (o, pending', evs) =>
            ⟨{ st1 with pending := pending' }, .meetingOutcome o,
              [.transcribe, .calendarRun text], evs⟩

/-! ## Lemmas: `' '.join(s.split()).strip()` is idempotent -/

/-- Word lists produced by `words`: nonempty words with no whitespace. -/
def properW (ws : List (List Char)) : Prop :=
  ∀ w ∈ ws, w ≠ [] ∧ ∀ c ∈ w, isSp c = false

theorem foldr_wStep_nonsp (w : List Char) (hw : ∀ c ∈ w, isSp c = false)
    (acc : List Char × List (List Char)) :
    w.foldr wStep acc = (w ++ acc.1, acc.2) := by
  induction w with
  | nil => rfl
  | cons c t ih =>
    have hc : isSp c = false := hw c (List.mem_cons_self c t)
    have ht : ∀ x ∈ t, isSp x = false := fun x hx => hw x (List.mem_cons_of_mem c hx)
    simp [List.foldr_cons, ih ht, wStep, hc]

theorem wgo_cons_sp (c : Char) (hc : isSp c = true) (t : List Char) :
    wgo (c :: t) = ([], words t) := by
  simp [wgo, List.foldr_cons, wStep, hc, words]

theorem words_nil : words [] = [] := rfl

theorem words_single (w : List Char) (hne : w ≠ [])
    (hns : ∀ c ∈ w, isSp c = false) : words w = [w] := by
  have h1 : wgo w = (w, []) := by
    have := foldr_wStep_nonsp w hns ([], [])
    simpa [wgo] using this
  simp [words, h1, pushCur, hne]

theorem wgo_proper (l : List Char) :
    (∀ c ∈ (wgo l).1, isSp c = false) ∧ properW (wgo l).2 := by
  induction l with
  | nil => exact ⟨by simp [wgo], by intro w hw; simp [wgo] at hw⟩
  | cons c t ih =>
    have hstep : wgo (c :: t) = wStep c (wgo t) := by simp [wgo, List.foldr_cons]
    rw [hstep]
    by_cases hc : isSp c = true
    · refine ⟨by simp [wStep, hc], ?_⟩
      intro w hw
      simp only [wStep, hc, if_pos] at hw
      simp only [pushCur] at hw
      by_cases hcur : (wgo t).1 = []
      · simp [hcur] at hw
        exact ih.2 w hw
      · simp [hcur] at hw
        rcases hw with h | h
        · subst h; exact ⟨hcur, ih.1⟩
        · exact ih.2 w h
    · have hc' : isSp c = false := by
        cases h : isSp c
        · rfl
        · exact absurd h hc
      refine ⟨?_, ?_⟩
      · intro x hx
        simp only [wStep, hc', Bool.false_eq_true, if_neg, if_false] at hx
        simp at hx
        rcases hx with h | h
        · subst h; exact hc'
        · exact ih.1 x h
      · intro w hw
        simp only [wStep, hc', Bool.false_eq_true, if_neg, if_false] at hw
        exact ih.2 w hw

theorem words_proper (l : List Char) : properW (words l) := by
  intro w hw
  have h := wgo_proper l
  simp only [words, pushCur] at hw
  by_cases hcur : (wgo l).1 = []
  · simp [hcur] at hw
    exact h.2 w hw
  · simp [hcur] at hw
    rcases hw with hh | hh
    · subst hh; exact ⟨hcur, h.1⟩
    · exact h.2 w hh

theorem joinSp_ne_nil (ws : List (List Char)) (h : properW ws) (hne : ws ≠ []) :
    joinSp ws ≠ [] := by
  match ws with
  | [w] =>
    have := (h w (by simp)).1
    simpa [joinSp] using this
  | w :: w' :: rest =>
    have hw : w ≠ [] := (h w (by simp)).1
    simp [joinSp]

theorem trimL_of_head (l : List Char)
    (h : l = [] ∨ ∃ c t, l = c :: t ∧ isSp c = false) : trimL l = l := by
  rcases h with h | ⟨c, t, rfl, hc⟩
  · simp [h, trimL]
  · simp [trimL, List.dropWhile_cons, hc]

theorem joinSp_head (ws : List (List Char)) (h : properW ws) :
    joinSp ws = [] ∨ ∃ c t, joinSp ws = c :: t ∧ isSp c = false := by
  match ws with
  | [] => exact Or.inl rfl
  | w :: rest =>
    have hw := h w (by simp)
    obtain ⟨c, t', rfl⟩ := List.exists_cons_of_ne_nil hw.1
    have hc : isSp c = false := hw.2 c (by simp)
    right
    match rest with
    | [] => exact ⟨c, t', by simp [joinSp], hc⟩
    | w' :: rest' => exact ⟨c, t' ++ ' ' :: joinSp (w' :: rest'), by simp [joinSp], hc⟩

theorem joinSp_rev_head (ws : List (List Char)) (h : properW ws) :
    (joinSp ws).reverse = [] ∨
      ∃ c t, (joinSp ws).reverse = c :: t ∧ isSp c = false := by
  induction ws with
  | nil => exact Or.inl rfl
  | cons w rest ih =>
    have hw := h w (by simp)
    have hrest : properW rest := fun x hx => h x (List.mem_cons_of_mem w hx)
    match rest with
    | [] =>
      right
      have hne : w.reverse ≠ [] := by
        simpa using hw.1
      obtain ⟨c, t', hct⟩ := List.exists_cons_of_ne_nil hne
      refine ⟨c, t', by simp [joinSp, hct], ?_⟩
      have : c ∈ w.reverse := by rw [hct]; simp
      exact hw.2 c (List.mem_reverse.mp this)
    | w' :: rest' =>
      right
      have hj : joinSp (w :: w' :: rest') = w ++ ' ' :: joinSp (w' :: rest') := by
        simp [joinSp]
      have hjne : joinSp (w' :: rest') ≠ [] :=
        joinSp_ne_nil _ hrest (by simp)
      have hrne : (joinSp (w' :: rest')).reverse ≠ [] := by
        simpa using hjne
      rcases ih hrest with hnil | ⟨c, t', hct, hc⟩
      · exact absurd (by simpa using hnil) hjne
      · refine ⟨c, t' ++ ' ' :: w.reverse, ?_, hc⟩
        rw [hj]
        simp [List.reverse_append, hct]

theorem trim_joinSp (ws : List (List Char)) (h : properW ws) :
    trim (joinSp ws) = joinSp ws := by
  have h1 : trimL (joinSp ws) = joinSp ws := trimL_of_head _ (joinSp_head ws h)
  have h2 : trimL ((joinSp ws).reverse) = (joinSp ws).reverse :=
    trimL_of_head _ (joinSp_rev_head ws h)
  simp [trim, h1, h2]

theorem words_joinSp (ws : List (List Char)) (h : properW ws) :
    words (joinSp ws) = ws := by
  induction ws with
  | nil => rfl
  | cons w rest ih =>
    have hw := h w (by simp)
    have hrest : properW rest := fun x hx => h x (List.mem_cons_of_mem w hx)
    match rest with
    | [] => exact words_single w hw.1 hw.2
    | w' :: rest' =>
      have hj : joinSp (w :: w' :: rest') = w ++ ' ' :: joinSp (w' :: rest') := by
        simp [joinSp]
      rw [hj]
      have hwgo : wgo (w ++ ' ' :: joinSp (w' :: rest')) = (w, words (joinSp (w' :: rest'))) := by
        have h1 : wgo (' ' :: joinSp (w' :: rest')) = ([], words (joinSp (w' :: rest'))) :=
          wgo_cons_sp ' ' (by decide) _
        have h2 := foldr_wStep_nonsp w hw.2 (wgo (' ' :: joinSp (w' :: rest')))
        calc wgo (w ++ ' ' :: joinSp (w' :: rest'))
            = w.foldr wStep (wgo (' ' :: joinSp (w' :: rest'))) := by
              simp [wgo, List.foldr_append]
          _ = (w, words (joinSp (w' :: rest'))) := by rw [h2, h1]; simp
      have hstep : words (w ++ ' ' :: joinSp (w' :: rest')) =
          w :: words (joinSp (w' :: rest')) := by
        simp only [words, hwgo]
        simp [pushCur, hw.1]
      rw [hstep, ih hrest]

theorem collapse_idem (l : List Char) : collapse (collapse l) = collapse l := by
  have hp := words_proper l
  have h1 : collapse l = joinSp (words l) := trim_joinSp _ hp
  rw [h1, collapse, words_joinSp _ hp, trim_joinSp _ hp]

theorem cleanTitle_collapse_fix (x : List Char)
    (h2 : stopStrip (cleanTitle x) = cleanTitle x) :
    collapse (cleanTitle x) = cleanTitle x ∧ cleanTitle x ≠ [] := by
  by_cases hc : collapse (stopStrip (digitStrip x)) = []
  · exfalso
    have hx : cleanTitle x = defaultTitle := by
      simp [cleanTitle, hc]
    rw [hx] at h2
    have : stopStrip defaultTitle = "стреча".toList := by decide
    rw [this] at h2
    exact absurd h2 (by decide)
  · have hx : cleanTitle x = collapse (stopStrip (digitStrip x)) := by
      simp [cleanTitle, hc]
    constructor
    · rw [hx]; exact collapse_idem _
    · rw [hx]; exact hc

/-! ## Claim C4 -/

/-- Claim C4 (code bug): the spec says the day-after-tomorrow keyword
resolves to reference date + 2 and takes priority over the contained
"tomorrow" keyword, and the dead `elif 'послезавтра'` branch of
bot.py line 215 shows the same intent; but the source tests
`'завтра' in text_lower` first, and every text containing "послезавтра"
contains "завтра", so the code resolves "послезавтра в 15:00" to
reference date + 1 day (here reference day 19732 = 2024-01-10,
resolved day 19733 = 2024-01-11, not 2024-01-12). -/
theorem c4_day_after_tomorrow_bug :
    parse_meeting_time_simple "послезавтра в 15:00".toList (mkT 19732 9 0) =
      some ("Встреча".toList, mkT 19733 15 0, mkT 19733 16 0) ∧
    (mkT 19733 15 0) / 1440 = 19732 + 1 ∧ 19732 + 1 ≠ 19732 + 2 := by
  decide

/-! ## Claim C5 -/

/-- Claim C5, counterexample: "созвон в 9" at reference time
2024-01-10 10:00 (day 19732) resolves to the SAME day at 10:00 (the
bare hour "9" is not even parsed — the regex needs `HH:MM`/`HH.MM` —
and no roll-forward to the next day happens), not to tomorrow as the
claim states. -/
theorem c5_counterexample :
    parse_meeting_time_simple "созвон в 9".toList (mkT 19732 10 0) =
      some ("созон".toList, mkT 19732 10 0, mkT 19732 11 0) ∧
    (mkT 19732 10 0) / 1440 ≠ 19732 + 1 := by
  decide

/-- Claim C5, amended: the regex-tier parser applies no roll-forward at
all — for every input without a date keyword the resolved date equals
the reference date, whether or not the resolved time-of-day has already
elapsed. -/
theorem c5_no_rollforward (text : List Char) (now : Nat)
    (ti : List Char) (s e : Nat)
    (h1 : hasSub "завтра".toList (lowerAll text) = false)
    (h2 : hasSub "послезавтра".toList (lowerAll text) = false)
    (hp : parse_meeting_time_simple text now = some (ti, s, e)) :
    s / 1440 = now / 1440 := by
  have h1' : hasSub ['з', 'а', 'в', 'т', 'р', 'а'] (lowerAll text) = false := h1
  have h2' : hasSub ['п', 'о', 'с', 'л', 'е', 'з', 'а', 'в', 'т', 'р', 'а']
      (lowerAll text) = false := h2
  have hoff : dateOffset text = 0 := by
    simp [dateOffset, h1', h2']
  unfold parse_meeting_time_simple at hp
  by_cases hbad : 24 ≤ ((findTime text).getD (10, 0)).1 ∨
      60 ≤ ((findTime text).getD (10, 0)).2
  · simp [hbad] at hp
  · simp only [hbad, if_false, Option.some.injEq, Prod.mk.injEq] at hp
    push_neg at hbad
    obtain ⟨-, hs, -⟩ := hp
    rw [← hs, hoff]
    omega

/-- Witness for `c5_no_rollforward` at "созвон в 9", reference
2024-01-10 10:00. -/
theorem c5_witness :
    hasSub "завтра".toList (lowerAll "созвон в 9".toList) = false ∧
    hasSub "послезавтра".toList (lowerAll "созвон в 9".toList) = false ∧
    parse_meeting_time_simple "созвон в 9".toList (mkT 19732 10 0) =
      some ("созон".toList, mkT 19732 10 0, mkT 19732 11 0) ∧
    (mkT 19732 10 0) / 1440 = (mkT 19732 10 0) / 1440 :=
  ⟨by decide, by decide, by decide,
    c5_no_rollforward "созвон в 9".toList (mkT 19732 10 0) "созон".toList
      (mkT 19732 10 0) (mkT 19732 11 0) (by decide) (by decide) (by decide)⟩

/-! ## Claim C6 -/

/-- Claim C6, counterexample: for "созвон" at reference time
2024-01-10 14:30 the parser's default start is 10:00 on the resolved
date — not 15:00, the next full hour after "now", as the claim
states. -/
theorem c6_counterexample :
    parse_meeting_time_simple "созвон".toList (mkT 19732 14 30) =
      some ("созон".toList, mkT 19732 10 0, mkT 19732 11 0) ∧
    mkT 19732 10 0 ≠ mkT 19732 15 0 := by
  decide

/-- Claim C6, amended: when the time regex finds no `HH:MM`/`HH.MM`
pattern, the default start time is the fixed time 10:00 on the resolved
date (and the end is 11:00), independent of the reference "now"'s
time-of-day. -/
theorem c6_default_ten (text : List Char) (now : Nat)
    (h : findTime text = none) :
    parse_meeting_time_simple text now =
      some (cleanTitle text,
        (now / 1440 + dateOffset text) * 1440 + 600,
        ((now / 1440 + dateOffset text) * 1440 + 600) + 60) := by
  simp [parse_meeting_time_simple, h]

/-- Witness for `c6_default_ten` at "созвон", reference
2024-01-10 14:30. -/
theorem c6_witness :
    findTime "созвон".toList = none ∧
    parse_meeting_time_simple "созвон".toList (mkT 19732 14 30) =
      some (cleanTitle "созвон".toList,
        ((mkT 19732 14 30) / 1440 + dateOffset "созвон".toList) * 1440 + 600,
        (((mkT 19732 14 30) / 1440 + dateOffset "созвон".toList) * 1440 + 600) + 60) :=
  ⟨by decide, c6_default_ten "созвон".toList (mkT 19732 14 30) (by decide)⟩

/-! ## Claim C7 -/

/-- Claim C7, counterexample: title extraction is NOT idempotent.
`cleanTitle "в"` yields the default label "Встреча" (the lone "в" is a
stop word, leaving the empty string), but cleaning "Встреча" again
strips its first letter — the stop-word regex removes the substring "в"
case-insensitively anywhere — giving "стреча". -/
theorem c7_counterexample :
    cleanTitle "в".toList = "Встреча".toList ∧
    cleanTitle (cleanTitle "в".toList) = "стреча".toList ∧
    cleanTitle (cleanTitle "в".toList) ≠ cleanTitle "в".toList := by
  decide

/-- Claim C7, amended: re-cleaning is the identity exactly on cleaned
titles that are fixed points of the two token-removal substitutions
(no digit pattern and no stop-word occurrence survives in them); the
whitespace-collapsing pass is always idempotent, and the default label
"Встреча" is excluded because it contains the stop word "в". -/
theorem c7_conditional_idem (x : List Char)
    (h1 : digitStrip (cleanTitle x) = cleanTitle x)
    (h2 : stopStrip (cleanTitle x) = cleanTitle x) :
    cleanTitle (cleanTitle x) = cleanTitle x := by
  obtain ⟨hcol, hne⟩ := cleanTitle_collapse_fix x h2
  have hunfold : cleanTitle (cleanTitle x) =
      if collapse (stopStrip (digitStrip (cleanTitle x))) = [] then defaultTitle
      else collapse (stopStrip (digitStrip (cleanTitle x))) := rfl
  rw [hunfold, h1, h2, hcol, if_neg hne]

/-- Witness for `c7_conditional_idem` at "ужин с Петей", whose cleaned
title is fixed by both substitutions. -/
theorem c7_witness :
    digitStrip (cleanTitle "ужин с Петей".toList) = cleanTitle "ужин с Петей".toList ∧
    stopStrip (cleanTitle "ужин с Петей".toList) = cleanTitle "ужин с Петей".toList ∧
    cleanTitle (cleanTitle "ужин с Петей".toList) = cleanTitle "ужин с Петей".toList :=
  ⟨by decide, by decide,
    c7_conditional_idem "ужин с Петей".toList (by decide) (by decide)⟩

/-! ## Claim C1 -/

theorem last_if_ne {α : Type} (busy uniq : List α) (h : busy ≠ []) :
    (if uniq.isEmpty then busy else uniq) ≠ [] := by
  cases uniq with
  | nil => simpa using h
  | cons a t => simp

theorem check_busy_ne (q : CalQuery) (hok : q.ok = true) (hne : q.slots ≠ []) :
    check_calendar_busy q ≠ [] := by
  obtain ⟨ok, slots, items⟩ := q
  simp only at hok hne
  subst hok
  cases slots with
  | nil => exact absurd rfl hne
  | cons p ps =>
    show (if (dedupGo (BusyEv.slot p.1 p.2.1 p.2.2 ::
        (List.map (fun r => BusyEv.slot r.1 r.2.1 r.2.2) ps ++
          List.map (fun r => BusyEv.item r.1 r.2.1 r.2.2) items)) []).isEmpty
        then (BusyEv.slot p.1 p.2.1 p.2.2 ::
          (List.map (fun r => BusyEv.slot r.1 r.2.1 r.2.2) ps ++
            List.map (fun r => BusyEv.item r.1 r.2.1 r.2.2) items))
        else dedupGo (BusyEv.slot p.1 p.2.1 p.2.2 ::
          (List.map (fun r => BusyEv.slot r.1 r.2.1 r.2.2) ps ++
            List.map (fun r => BusyEv.item r.1 r.2.1 r.2.2) items)) []) ≠ []
    exact last_if_ne _ _ (by simp)

theorem check_busy_isEmpty_false (q : CalQuery) (hok : q.ok = true)
    (hne : q.slots ≠ []) : (check_calendar_busy q).isEmpty = false := by
  cases hb : check_calendar_busy q with
  | nil => exact absurd hb (check_busy_ne q hok hne)
  | cons a t => rfl

/-- Claim C1: when the calendar service is configured, parsing
succeeds and the busy query returns at least one overlapping busy
interval, `create_calendar_event` returns the `conflict` outcome,
inserts nothing into the calendar, and stores a pending-meeting record
for the user holding the proposed title, start, end and the conflict
descriptions. -/
theorem c1_conflict_stores_pending (env : CalEnv) (text : List Char)
    (user : Nat) (pending : Store) (ti : List Char) (s e : Nat)
    (hs : env.service = true)
    (hok : env.query.ok = true)
    (hne : env.query.slots ≠ [])
    (hp : parse_meeting_with_ai env text = some (ti, s, e)) :
    create_calendar_event env text user pending =
      some (Outcome.conflict
          ⟨ti, s, e, (), mkConflicts (check_calendar_busy env.query), fmtRu s⟩,
        setStore pending user
          ⟨ti, s, e, (), mkConflicts (check_calendar_busy env.query), fmtRu s⟩,
        []) := by
  have hbusy := check_busy_isEmpty_false env.query hok hne
  unfold create_calendar_event
  rw [hs, hp]
  simp [hbusy]

/-- Witness for `c1_conflict_stores_pending`: a single busy slot
exactly overlapping the proposed 2024-01-11 15:00-16:00 meeting. -/
theorem c1_witness :
    (CalEnv.mk true (some ("Встреча с Антоном".toList, mkT 19733 15 0, mkT 19733 16 0))
        (mkT 19732 9 0)
        (CalQuery.mk true [("primary", "2024-01-11T15:00:00+03:00", "2024-01-11T16:00:00+03:00")]
          [("primary", "Занято", "2024-01-11T15:00:00+03:00")]) true "").service = true ∧
    (CalQuery.mk true [("primary", "2024-01-11T15:00:00+03:00", "2024-01-11T16:00:00+03:00")]
        [("primary", "Занято", "2024-01-11T15:00:00+03:00")]).slots ≠ [] ∧
    create_calendar_event
        (CalEnv.mk true (some ("Встреча с Антоном".toList, mkT 19733 15 0, mkT 19733 16 0))
          (mkT 19732 9 0)
          (CalQuery.mk true [("primary", "2024-01-11T15:00:00+03:00", "2024-01-11T16:00:00+03:00")]
            [("primary", "Занято", "2024-01-11T15:00:00+03:00")]) true "")
        "встреча завтра в 15:00 с Антоном".toList 7 (fun _ => none) =
      some (Outcome.conflict
          ⟨"Встреча с Антоном".toList, mkT 19733 15 0, mkT 19733 16 0, (),
            mkConflicts (check_calendar_busy
              (CalQuery.mk true [("primary", "2024-01-11T15:00:00+03:00", "2024-01-11T16:00:00+03:00")]
                [("primary", "Занято", "2024-01-11T15:00:00+03:00")])),
            fmtRu (mkT 19733 15 0)⟩,
        setStore (fun _ => none) 7
          ⟨"Встреча с Антоном".toList, mkT 19733 15 0, mkT 19733 16 0, (),
            mkConflicts (check_calendar_busy
              (CalQuery.mk true [("primary", "2024-01-11T15:00:00+03:00", "2024-01-11T16:00:00+03:00")]
                [("primary", "Занято", "2024-01-11T15:00:00+03:00")])),
            fmtRu (mkT 19733 15 0)⟩,
        []) :=
  ⟨rfl, by decide,
    c1_conflict_stores_pending _ _ 7 (fun _ => none) _ _ _ rfl rfl (by decide) rfl⟩

/-! ## Claim C2 -/

/-- Environment for the C2 counterexample: the busy query fails
(`ok = false`, even though the backend would have reported a busy
slot), yet the insert succeeds. -/
def envC2 : CalEnv :=
  CalEnv.mk true (some ("Встреча".toList, mkT 19733 15 0, mkT 19733 16 0)) 0
    (CalQuery.mk false [("primary", "2024-01-11T15:00:00+03:00", "2024-01-11T16:00:00+03:00")] [])
    true ""

/-- Claim C2, counterexample: a failing calendar busy query is swallowed
by `check_calendar_busy` (it returns `[]`), so `create_calendar_event`
proceeds and — the insert call succeeding — returns `created`, not
`error`, and actually inserts the event. -/
theorem c2_counterexample :
    (create_calendar_event envC2 "встреча".toList 7 (fun _ => none)).map
        (fun r => outcomeIsError r.1) = some false ∧
    (create_calendar_event envC2 "встреча".toList 7 (fun _ => none)).map
        (fun r => r.1) =
      some (Outcome.created ("Встреча\n🕐 " ++ fmtRu (mkT 19733 15 0))) ∧
    (create_calendar_event envC2 "встреча".toList 7 (fun _ => none)).map
        (fun r => r.2.2) =
      some [("Встреча".toList, mkT 19733 15 0, mkT 19733 16 0)] := by
  refine ⟨rfl, ?_, rfl⟩
  decide

/-- Claim C2, amended: `create_calendar_event` returns `error` — with
the pending store unchanged and nothing inserted — exactly in these
failure situations: the service is unconfigured, or the creation call
fails after a busy result with no conflicts.  (A failing busy query
alone is swallowed and treated as "no busy intervals", so it does not
produce `error`.) -/
theorem c2_error_cases (env : CalEnv) (text : List Char) (user : Nat)
    (pending : Store)
    (h : env.service = false ∨
      ((parse_meeting_with_ai env text).isSome ∧
        check_calendar_busy env.query = [] ∧ env.insertOk = false)) :
    create_calendar_event env text user pending =
      some (Outcome.error (if env.service = true then env.insertErr else cfgErrMsg),
        pending, []) := by
  by_cases hsv : env.service = false
  · simp [create_calendar_event, hsv]
  · have hsv' : env.service = true := by
      revert hsv; cases env.service <;> simp
    rcases h with h | ⟨hp, hb, hi⟩
    · exact absurd h hsv
    · obtain ⟨⟨t1, s1, e1⟩, hpe⟩ := Option.isSome_iff_exists.mp hp
      unfold create_calendar_event
      rw [hsv', hpe]
      simp [hb, hi, create_event_in_calendar, hsv']

/-- Witness for `c2_error_cases`: unconfigured service. -/
theorem c2_witness :
    ((CalEnv.mk false none 0 (CalQuery.mk true [] []) true "").service = false ∨
      ((parse_meeting_with_ai (CalEnv.mk false none 0 (CalQuery.mk true [] []) true "")
          "x".toList).isSome ∧
        check_calendar_busy (CalEnv.mk false none 0 (CalQuery.mk true [] []) true "").query = [] ∧
        (CalEnv.mk false none 0 (CalQuery.mk true [] []) true "").insertOk = false)) ∧
    create_calendar_event (CalEnv.mk false none 0 (CalQuery.mk true [] []) true "")
        "x".toList 3 (fun _ => none) =
      some (Outcome.error
          (if (CalEnv.mk false none 0 (CalQuery.mk true [] []) true "").service = true
            then (CalEnv.mk false none 0 (CalQuery.mk true [] []) true "").insertErr
            else cfgErrMsg),
        (fun _ => none), []) :=
  ⟨Or.inl rfl, c2_error_cases _ "x".toList 3 (fun _ => none) (Or.inl rfl)⟩

/-! ## Claim C3 -/

/-- A 100-element prior state of the duplicate-suppression set: the
message keys of users 1..100, message id 0. -/
def dupSet100 : Finset (List Char) :=
  ((List.range 100).map fun i => msgKey (i + 1) 0).toFinset

/-- Claim C3, counterexample: with a 100-element prior state not
containing the key, the first `seen_and_mark` call records the key and
then clears the whole set (its size exceeded 100), so the second call
with the same pair returns "not seen" again — not "seen" as the claim
states for every prior state. -/
theorem c3_counterexample :
    msgKey 0 0 ∉ dupSet100 ∧ dupSet100.card = 100 ∧
    (seen_and_mark (msgKey 0 0) dupSet100).1 = false ∧
    (seen_and_mark (msgKey 0 0) ((seen_and_mark (msgKey 0 0) dupSet100).2)).1 = false := by
  set_option maxRecDepth 40000 in decide

/-- Claim C3, amended: for a pair not yet recorded, processing it twice
in succession yields "not seen" then "seen" PROVIDED the set holds at
most 100 entries after the first recording; when the recording pushes
the size above 100 the entire set — including the just-recorded entry —
is cleared right after recording, so the guarantee fails (see the
counterexample). -/
theorem c3_dedup_below_bound (key : List Char) (s : Finset (List Char))
    (h1 : key ∉ s) (h2 : (insert key s).card ≤ 100) :
    (seen_and_mark key s).1 = false ∧
    (seen_and_mark key ((seen_and_mark key s).2)).1 = true := by
  have hnot : ¬ 100 < (insert key s).card := not_lt.mpr h2
  constructor
  · simp [seen_and_mark, h1]
  · have hcard : ¬ 100 < s.card + 1 := by
      rwa [Finset.card_insert_of_not_mem h1] at hnot
    simp [seen_and_mark, h1, hcard, Finset.mem_insert_self]

/-- Witness for `c3_dedup_below_bound` on an empty prior state. -/
theorem c3_witness :
    msgKey 1 2 ∉ (∅ : Finset (List Char)) ∧
    (insert (msgKey 1 2) (∅ : Finset (List Char))).card ≤ 100 ∧
    ((seen_and_mark (msgKey 1 2) ∅).1 = false ∧
      (seen_and_mark (msgKey 1 2) ((seen_and_mark (msgKey 1 2) ∅).2)).1 = true) :=
  ⟨by decide, by decide, c3_dedup_below_bound (msgKey 1 2) ∅ (by decide) (by decide)⟩

/-! ## Claim C8 -/

/-- Claim C8: a fresh (non-duplicate) voice message from a user whose
mode is unset is answered with the pick-a-mode prompt; no external call
(transcription, Notion, calendar) is made, no event is created, and
neither the pending store nor the mode map changes. -/
theorem c8_unset_mode_prompt (env : VoiceEnv) (user msg : Nat) (st : BotState)
    (hm : getMode st.modes user = none)
    (hf : msgKey user msg ∉ st.processed) :
    (handle_voice env user msg st).out = VoiceOut.promptMode ∧
    (handle_voice env user msg st).calls = [] ∧
    (handle_voice env user msg st).createdEvents = [] ∧
    (handle_voice env user msg st).state.pending = st.pending ∧
    (handle_voice env user msg st).state.modes = st.modes := by
  simp [handle_voice, seen_and_mark, hf, hm]

/-- Witness for `c8_unset_mode_prompt`. -/
theorem c8_witness :
    getMode (BotState.mk (fun _ => none) (fun _ => none) ∅).modes 1 = none ∧
    msgKey 1 2 ∉ (BotState.mk (fun _ => none) (fun _ => none) ∅).processed ∧
    ((handle_voice
        (VoiceEnv.mk (Except.ok "привет".toList) true "" (CalEnv.mk true none 0 (CalQuery.mk true [] []) true "")) 1 2
        (BotState.mk (fun _ => none) (fun _ => none) ∅)).out = VoiceOut.promptMode ∧
      (handle_voice (VoiceEnv.mk (Except.ok "привет".toList) true "" (CalEnv.mk true none 0 (CalQuery.mk true [] []) true "")) 1 2
        (BotState.mk (fun _ => none) (fun _ => none) ∅)).calls = [] ∧
      (handle_voice (VoiceEnv.mk (Except.ok "привет".toList) true "" (CalEnv.mk true none 0 (CalQuery.mk true [] []) true "")) 1 2
        (BotState.mk (fun _ => none) (fun _ => none) ∅)).createdEvents = [] ∧
      (handle_voice (VoiceEnv.mk (Except.ok "привет".toList) true "" (CalEnv.mk true none 0 (CalQuery.mk true [] []) true "")) 1 2
        (BotState.mk (fun _ => none) (fun _ => none) ∅)).state.pending =
        (BotState.mk (fun _ => none) (fun _ => none) ∅).pending ∧
      (handle_voice (VoiceEnv.mk (Except.ok "привет".toList) true "" (CalEnv.mk true none 0 (CalQuery.mk true [] []) true "")) 1 2
        (BotState.mk (fun _ => none) (fun _ => none) ∅)).state.modes =
        (BotState.mk (fun _ => none) (fun _ => none) ∅).modes) :=
  ⟨rfl, by decide,
    c8_unset_mode_prompt (VoiceEnv.mk (Except.ok "привет".toList) true "" (CalEnv.mk true none 0 (CalQuery.mk true [] []) true "")) 1 2
      (BotState.mk (fun _ => none) (fun _ => none) ∅) rfl (by decide)⟩

/-! ## Claim C9 -/

/-- Calendar environment for the C9 theorems (its contents are
irrelevant: no insert happens). -/
def envC9 : CalEnv :=
  CalEnv.mk true none 0 (CalQuery.mk true [] []) true ""

/-- Claim C9, counterexample: cancelling with no pending record replies
with the ordinary "meeting cancelled" message, not with "not found" as
the claim states for both buttons. -/
theorem c9_counterexample :
    (handle_meeting_callback envC9 CbAction.cancel 5 (fun _ => none)).1 =
      CbReply.cancelled ∧
    CbReply.cancelled ≠ CbReply.notFound := by
  exact ⟨rfl, by decide⟩

/-- Claim C9, amended: with no pending record for the user, confirm and
cancel leave the pending store untouched and create no calendar event;
confirm reports "not found", while cancel reports the ordinary
cancellation message. -/
theorem c9_no_pending_noop (env : CalEnv) (act : CbAction) (user : Nat)
    (pending : Store) (h : pending user = none) :
    handle_meeting_callback env act user pending =
      ((match act with
        | CbAction.confirm => CbReply.notFound
        | CbAction.cancel => CbReply.cancelled),
        pending, []) := by
  cases act
  · simp [handle_meeting_callback, h]
  · simp [handle_meeting_callback, h]

/-- Witness for `c9_no_pending_noop` on the confirm button. -/
theorem c9_witness :
    (fun _ => none : Store) 5 = none ∧
    handle_meeting_callback envC9 CbAction.confirm 5 (fun _ => none) =
      (CbReply.notFound, (fun _ => none), []) :=
  ⟨rfl, c9_no_pending_noop envC9 CbAction.confirm 5 (fun _ => none) rfl⟩

/-! ## Claim C10 -/

/-- Claim C10: `/start` stores mode `task` for the invoking user, so a
fresh voice message right after it — with a successful transcription —
goes down the task-creation path (transcribe, then the Notion call),
never the pick-a-mode prompt. -/
theorem c10_start_sets_task (env : VoiceEnv) (user msg : Nat) (st : BotState)
    (text : List Char)
    (ht : env.transcribeR = Except.ok text)
    (hf : msgKey user msg ∉ st.processed) :
    getMode (start user st).modes user = some Mode.task ∧
    (handle_voice env user msg (start user st)).calls =
      [Action.transcribe, Action.notionCreate text] ∧
    (handle_voice env user msg (start user st)).out ≠ VoiceOut.promptMode := by
  have hm : getMode (start user st).modes user = some Mode.task := by
    simp [start, getMode]
  refine ⟨hm, ?_, ?_⟩ <;>
    cases hn : env.notionOk <;>
      simp [handle_voice, seen_and_mark, hf, start, getMode, ht, hn]

/-- Witness for `c10_start_sets_task`. -/
theorem c10_witness :
    (VoiceEnv.mk (Except.ok "купить хлеб".toList) true "" (CalEnv.mk true none 0 (CalQuery.mk true [] []) true "")).transcribeR =
      Except.ok "купить хлеб".toList ∧
    msgKey 1 2 ∉ (BotState.mk (fun _ => none) (fun _ => none) ∅).processed ∧
    (getMode (start 1 (BotState.mk (fun _ => none) (fun _ => none) ∅)).modes 1 =
        some Mode.task ∧
      (handle_voice (VoiceEnv.mk (Except.ok "купить хлеб".toList) true "" (CalEnv.mk true none 0 (CalQuery.mk true [] []) true "")) 1 2
        (start 1 (BotState.mk (fun _ => none) (fun _ => none) ∅))).calls =
        [Action.transcribe, Action.notionCreate "купить хлеб".toList] ∧
      (handle_voice (VoiceEnv.mk (Except.ok "купить хлеб".toList) true "" (CalEnv.mk true none 0 (CalQuery.mk true [] []) true "")) 1 2
        (start 1 (BotState.mk (fun _ => none) (fun _ => none) ∅))).out ≠
        VoiceOut.promptMode) :=
  ⟨rfl, by decide,
    c10_start_sets_task (VoiceEnv.mk (Except.ok "купить хлеб".toList) true "" (CalEnv.mk true none 0 (CalQuery.mk true [] []) true "")) 1 2
      (BotState.mk (fun _ => none) (fun _ => none) ∅) "купить хлеб".toList rfl (by decide)⟩

end VoiceBot
